import Mathlib

/-!
Verification of the `staticdir` directory-tree translator.

Shallow embedding of the Go package `staticdir` (canonical revision:
`src/unnamed/part_000`; the older revision `src/staticdir.go` differs only in
`Translate`, which it stubs out, and in the directory-creation failure policy
of `CopyDir`, which it makes unconditionally fatal).

Modelling choices:
* Machine effects are explicit. The environment is a `World` of oracles: the
  contents returned by `os.Open` plus read on a source path, injected failures
  for `os.Mkdir` / `os.Create` / the byte-streaming step, and the behaviour of
  the template engine (`html/template` is external library code, so its parse
  and execute steps are oracle functions).
* The target filesystem is a state `TState`: the list of directories that
  exist (with the mode each was created with) and an association list from
  target path to file contents.
* Go `error` results become `Option GoErr` (`none` = Go `nil`); `os.IsExist`
  becomes the `isExist` flag of `GoErr`.
* The source tree is an inductive `FSEntry`, so the recursion of `CopyDir` is
  structural.  `GetChildren (path.Join(t.Source, subpath))` is modelled by
  handing `CopyDir` the listing result for its subpath: the `dirOk` / `dirErr`
  constructors carry the listing (or listing error) that `GetChildren` would
  return for that child directory.
* `path.Clean` and `path.Join` are Go standard library functions; they are
  implemented here following their documented semantics (segment stack with
  `.` and `..` resolution).
-/

set_option autoImplicit false

namespace Staticdir

/-- A Go `error` value: a message plus whether `os.IsExist` holds of it. -/
structure GoErr where
  msg : String
  isExist : Bool := false
deriving DecidableEq, Repr

/-- File contents as a byte sequence. -/
abbrev ByteSeq := List Nat

/-- The part of `os.FileInfo` the program and its predicates observe:
`Name()`, `IsDir()`, and a residual metadata field standing for the other
attributes (size, mode, mtime) that exclusion predicates may inspect. -/
structure FileInfo where
  name : String
  isDir : Bool
  meta : Nat := 0
deriving DecidableEq, Repr

/-- The state of the target filesystem: directories that exist (path and the
mode they were created with) and files that exist (path and contents). -/
structure TState where
  dirs : List (String × Nat)
  files : List (String × ByteSeq)
deriving DecidableEq, Repr

/-- Association-list update used for `os.Create` / writes on the target. -/
def setFile : List (String × ByteSeq) → String → ByteSeq → List (String × ByteSeq)
  | [], p, c => [(p, c)]
  | (q, d) :: rest, p, c =>
    if q = p then (p, c) :: rest else (q, d) :: setFile rest p c

/-- Association-list lookup on the target files. -/
def getFile : List (String × ByteSeq) → String → Option ByteSeq
  | [], _ => none
  | (q, d) :: rest, p => if q = p then some d else getFile rest p

/-- Does a directory exist at path `p` in the target state? -/
def TState.hasDir (st : TState) (p : String) : Bool :=
  st.dirs.any (fun d => d.1 = p)

/-- The filesystem / library environment, as oracles.  `α` is the type of the
strategy user data (Go `interface\x7b\x7d`; a Go `nil` is `Option.none`).
* `readFile` : the outcome of `os.Open` on a source path plus reading it to
  the end (an `error` covers both the open failing and a read failing).
* `mkdirFail p` : an environmental failure of `os.Mkdir p` (permission denied,
  missing parent, ...) — the "target already exists" failure is produced by
  the model itself from `TState.hasDir`.
* `createFail p` : failure of `os.Create p`.
* `writeFail p` : failure of the byte-streaming step into `p`
  (`io.Copy` / `Template.Execute` writing to the created file).
* `parseTemplate` : `html/template` parsing of a source text, yielding the
  representation of the parsed template or a parse error.
* `execTemplate` : executing a parsed template against the user data,
  yielding the rendered bytes or an execution error. -/
structure World (α : Type) where
  readFile : String → Except GoErr ByteSeq
  mkdirFail : String → Option GoErr
  createFail : String → Option GoErr
  writeFail : String → Option GoErr
  parseTemplate : ByteSeq → Except GoErr ByteSeq
  execTemplate : ByteSeq → Option α → Except GoErr ByteSeq

/-- The type of a copy strategy (the Go field
`CopyFunc func(string, string, os.FileInfo, interface\x7b\x7d) error`):
given the world, source path, target path, file info (`none` = Go `nil`) and
user data (`none` = Go `nil`), transform the target state and return the Go
error result. -/
abbrev CopyStrategy (α : Type) :=
  World α → String → String → Option FileInfo → Option α → TState →
    Option GoErr × TState

/-- The `Translator` struct. -/
structure Translator (α : Type) where
  Source : String
  Target : String
  ExcludeDir : FileInfo → Bool
  ExcludeFile : FileInfo → Bool
  DirMode : Nat
  CopyFunc : CopyStrategy α
  CopyData : Option α

/-! Go path helpers: `path.Clean` and `path.Join` (standard library semantics). -/

/-- Split a character list on `/`. -/
def splitSlash : List Char → List (List Char)
  | [] => [[]]
  | c :: rest =>
    if c = '/' then [] :: splitSlash rest
    else
      match splitSlash rest with
      | [] => [[c]]
      | seg :: segs => (c :: seg) :: segs

/-- One step of the segment processing of `path.Clean`: push a path segment
onto the stack of output segments, resolving `""`, `.` and `..`. -/
def cleanPush (rooted : Bool) (stack : List String) (seg : String) : List String :=
  if seg = "" ∨ seg = "." then stack
  else if seg = ".." then
    match stack with
    | [] => if rooted then [] else [".."]
    | top :: rest => if top = ".." then seg :: top :: rest else rest
  else seg :: stack

/-- Go `path.Clean`: remove empty and `.` segments, resolve `..` against
preceding segments (dropping `..` at the start of a rooted path), return `"."`
for an empty result of a relative path and `"/"` for a rooted one. -/
def pathClean (p : String) : String :=
  if p = "" then "."
  else
    let rooted := p.data.head? = some '/'
    let segs := (splitSlash p.data).map List.asString
    let stack := segs.foldl (cleanPush rooted) []
    let body := String.intercalate "/" stack.reverse
    if rooted then (if body = "" then "/" else "/" ++ body)
    else (if body = "" then "." else body)

/-- Go `path.Join` restricted to two elements: drop empty elements, join the
rest with `/` and `Clean` the result; all-empty input yields `""`. -/
def pathJoin (a b : String) : String :=
  if a = "" then (if b = "" then "" else pathClean b)
  else if b = "" then pathClean a
  else pathClean (a ++ "/" ++ b)

/-- Go `strings.HasSuffix`: does `s` end with `suffix`? -/
def hasSuffixGo (s suffix : String) : Bool :=
  s.data.reverse.take suffix.data.length == suffix.data.reverse

/-- Go `strings.TrimSuffix`: remove one trailing occurrence of `suffix` if
present, otherwise return the string unchanged. -/
def trimSuffix (s suffix : String) : String :=
  if hasSuffixGo s suffix then
    (s.data.take (s.data.length - suffix.data.length)).asString
  else s

/-! Primitive filesystem steps on the target. -/

/-- Model of `os.Mkdir p mode` against the target state: fails with an `isExist` error
if `p` already exists, fails with an injected environment error if there is one,
otherwise records the directory. -/
def mkdirGo {α : Type} (w : World α) (p : String) (mode : Nat) (st : TState) :
    Option GoErr × TState :=
  if st.hasDir p then (some ⟨"mkdir " ++ p ++ ": file exists", true⟩, st)
  else
    match w.mkdirFail p with
    | some e => (some e, st)
    | none => (none, { st with dirs := st.dirs ++ [(p, mode)] })

/-- Model of `os.Create p`: either the failure injected by the environment,
or the file at `p` comes to exist with empty (truncated) contents. -/
def createGo {α : Type} (w : World α) (p : String) (st : TState) :
    Option GoErr × TState :=
  match w.createFail p with
  | some e => (some e, st)
  | none => (none, { st with files := setFile st.files p [] })

/-- Streaming bytes `c` into the already-created file `p` (`io.Copy`, or the
writes of `Template.Execute`): either the failure injected by the environment
(leaving the file as created, i.e. truncated), or the file holds `c`. -/
def writeGo {α : Type} (w : World α) (p : String) (c : ByteSeq) (st : TState) :
    Option GoErr × TState :=
  match w.writeFail p with
  | some e => (some e, st)
  | none => (none, { st with files := setFile st.files p c })

/-! The two standard copy strategies. -/

/-- The default exclusion predicate `ExcludeNone`; it excludes nothing. -/
def ExcludeNone (_fi : FileInfo) : Bool := false

/-- Identity copy `ColdCopy`: open the source (failure returned before the
target is touched), create the target (truncating), stream the bytes across. -/
def ColdCopy {α : Type} : CopyStrategy α := fun w source target _fi _data st =>
  match w.readFile source with
  | .error e => (some e, st)
  | .ok content =>
    match createGo w target st with
    | (some e, st1) => (some e, st1)
    | (none, st1) => writeGo w target content st1

/-- Model of `template.ParseFiles source`: read the source file and parse
its contents as a template. -/
def parseFilesGo {α : Type} (w : World α) (source : String) : Except GoErr ByteSeq :=
  match w.readFile source with
  | .error e => .error e
  | .ok c => w.parseTemplate c

/-- Template-or-copy strategy `TemplateCopy`: a source not ending in `.tmpl`
is delegated entirely to `ColdCopy` with nil file info and nil data;
otherwise the `.tmpl` suffix is trimmed from the target, the target is
created, the source is parsed as a template and executed against the data
into the target. -/
def TemplateCopy {α : Type} : CopyStrategy α := fun w source target _fi data st =>
  if ¬ hasSuffixGo source ".tmpl" then
    ColdCopy w source target none none st
  else
    let target1 := trimSuffix target ".tmpl"
    match createGo w target1 st with
    | (some e, st1) => (some e, st1)
    | (none, st1) =>
      match parseFilesGo w source with
      | .error e => (some e, st1)
      | .ok parsed =>
        match w.execTemplate parsed data with
        | .error e => (some e, st1)
        | .ok rendered => writeGo w target1 rendered st1

/-- Constructor `New`: build a `Translator` with cleaned roots and the
documented defaults (the remaining Go field `CopyData` keeps its zero value,
nil). -/
def New (α : Type) (source target : String) : Translator α :=
  { Source := pathClean source
    Target := pathClean target
    ExcludeDir := ExcludeNone
    ExcludeFile := ExcludeNone
    DirMode := 0o755
    CopyFunc := ColdCopy
    CopyData := none }

/-! The source tree and the recursive walk. -/

/-- A source-tree entry as observed through `GetChildren`: a file, a
directory whose own `GetChildren` call will succeed with `children`, or a
directory whose `GetChildren` call will fail with `err`.  `meta` is the
residual `os.FileInfo` metadata. -/
inductive FSEntry where
  | file (name : String) (meta : Nat)
  | dirOk (name : String) (meta : Nat) (children : List FSEntry)
  | dirErr (name : String) (meta : Nat) (err : GoErr)

/-- The `os.FileInfo` of an entry, as `Readdir` reports it. -/
def FSEntry.info : FSEntry → FileInfo
  | .file n m => ⟨n, false, m⟩
  | .dirOk n m _ => ⟨n, true, m⟩
  | .dirErr n m _ => ⟨n, true, m⟩

/-- Method `Translator.CopyFile`: skip the file if `ExcludeFile` holds of its info,
otherwise invoke the copy strategy on the joined source and target paths,
the info of the file, and the configured user data. -/
def Translator.CopyFile {α : Type} (t : Translator α) (w : World α)
    (subpath : String) (fi : FileInfo) (st : TState) : Option GoErr × TState :=
  if ¬ t.ExcludeFile fi then
    t.CopyFunc w (pathJoin t.Source subpath) (pathJoin t.Target subpath)
      (some fi) t.CopyData st
  else
    (none, st)

mutual

/-- The loop of `Translator.CopyDir`: process the children in listing order.
The error results of the recursive `CopyDir` and of `CopyFile` are discarded
by the source (`t.CopyDir(...)` / `t.CopyFile(...)` as bare statements), so
only the state flows on. -/
def Translator.copyEntries {α : Type} (t : Translator α) (w : World α)
    (subpath : String) (es : List FSEntry) (st : TState) : TState :=
  match es with
  | [] => st
  | e :: rest =>
    Translator.copyEntries t w subpath rest (Translator.copyEntry t w subpath e st)

/-- Processing of one child: a directory child is a recursive `CopyDir` on
the extended subpath (with its own `GetChildren` outcome), a file child is a
`CopyFile`; either error result is discarded.  The `dirOk` branch inlines the
state effect of the recursive `CopyDir` (create the target directory,
tolerating an already-exists failure and aborting the subtree on any other
failure, then process the grandchildren); `Translator.copyDirChildren` below
packages the same body together with its error result, and
`copyEntry_dirOk` proves the two agree. -/
def Translator.copyEntry {α : Type} (t : Translator α) (w : World α)
    (subpath : String) (e : FSEntry) (st : TState) : TState :=
  match e with
  | .file n m =>
    (Translator.CopyFile t w (pathJoin subpath n) ⟨n, false, m⟩ st).2
  | .dirOk n _ children =>
    (match mkdirGo w (pathJoin t.Target (pathJoin subpath n)) t.DirMode st with
     | (some e1, st1) =>
       if ¬ e1.isExist then st1
       else Translator.copyEntries t w (pathJoin subpath n) children st1
     | (none, st1) => Translator.copyEntries t w (pathJoin subpath n) children st1)
  | .dirErr _ _ _ => st

end

/-- The body of `Translator.CopyDir` after `GetChildren` has succeeded with
`children`: create the target directory for `subpath` (an already-exists
failure is ignored, any other failure is returned), then process every child
in listing order, discarding the error result of each child, and return nil. -/
def Translator.copyDirChildren {α : Type} (t : Translator α) (w : World α)
    (subpath : String) (children : List FSEntry) (st : TState) :
    Option GoErr × TState :=
  match mkdirGo w (pathJoin t.Target subpath) t.DirMode st with
  | (some e, st1) =>
    if ¬ e.isExist then (some e, st1)
    else (none, Translator.copyEntries t w subpath children st1)
  | (none, st1) => (none, Translator.copyEntries t w subpath children st1)

/-- Method `Translator.CopyDir subpath`, given the outcome `listing` of
`GetChildren (path.Join(t.Source, subpath))`: a listing failure is returned
with nothing done; otherwise the directory body runs. -/
def Translator.CopyDir {α : Type} (t : Translator α) (w : World α)
    (subpath : String) (listing : Except GoErr (List FSEntry)) (st : TState) :
    Option GoErr × TState :=
  match listing with
  | .error e => (some e, st)
  | .ok children => Translator.copyDirChildren t w subpath children st

/-- Entry point `Translator.Translate`: the zero-argument operation; `return
t.CopyDir("")`, where `root` is the outcome of listing the source root. -/
def Translator.Translate {α : Type} (t : Translator α) (w : World α)
    (root : Except GoErr (List FSEntry)) (st : TState) : Option GoErr × TState :=
  Translator.CopyDir t w "" root st

/-! Concrete fixtures used by witnesses and counterexamples. -/

/-- A concrete non-`isExist` error: a source file that cannot be opened. -/
def eRead : GoErr := ⟨"open s/a: permission denied", false⟩

/-- A concrete non-`isExist` error: a directory that cannot be created. -/
def ePerm : GoErr := ⟨"mkdir t/x: permission denied", false⟩

/-- A concrete template parse error. -/
def eParse : GoErr := ⟨"template: p.html.tmpl: unexpected EOF", false⟩

/-- The empty target filesystem. -/
def st0 : TState := ⟨[], []⟩

/-- An environment where every operation succeeds, every source file reads
as the byte `[1]`, parsing is the identity and execution returns the parsed
bytes unchanged. -/
def wAll1 : World Nat :=
  ⟨fun _ => .ok [1], fun _ => none, fun _ => none, fun _ => none,
    fun c => .ok c, fun c _ => .ok c⟩

/-- An environment where the source file `s/a` cannot be opened and every
other source file reads as the byte `[7]`. -/
def wFailA : World Nat :=
  ⟨fun p => if p = "s/a" then .error eRead else .ok [7], fun _ => none,
    fun _ => none, fun _ => none, fun c => .ok c, fun c _ => .ok c⟩

/-- An environment where every template parse fails (and everything else
succeeds). -/
def wParseErr : World Nat :=
  ⟨fun _ => .ok [1], fun _ => none, fun _ => none, fun _ => none,
    fun _ => .error eParse, fun c _ => .ok c⟩

/-- A translator whose directory-exclusion predicate excludes everything. -/
def tExclDirs : Translator Nat :=
  { New Nat "s" "t" with ExcludeDir := fun _ => true }

/-- A translator whose file-exclusion predicate excludes everything. -/
def tExclFiles : Translator Nat :=
  { New Nat "s" "t" with ExcludeFile := fun _ => true }

/-! Helper lemmas. -/

/-- Looking up a freshly written file yields the bytes just written. -/
theorem getFile_setFile (fs : List (String × ByteSeq)) (p : String) (c : ByteSeq) :
    getFile (setFile fs p c) p = some c := by
  induction fs with
  | nil => simp [setFile, getFile]
  | cons hd tl ih =>
    rcases hd with ⟨q, d⟩
    by_cases h : q = p <;> simp [setFile, getFile, h, ih]

/-- Processing a directory child is exactly the state effect of the
recursive `CopyDir` body on the extended subpath. -/
theorem copyEntry_dirOk {α : Type} (t : Translator α) (w : World α)
    (subpath n : String) (m : Nat) (children : List FSEntry) (st : TState) :
    Translator.copyEntry t w subpath (.dirOk n m children) st =
      (Translator.copyDirChildren t w (pathJoin subpath n) children st).2 := by
  simp only [Translator.copyEntry, Translator.copyDirChildren]
  rcases h : mkdirGo w (pathJoin t.Target (pathJoin subpath n)) t.DirMode st with ⟨merr, st1⟩
  cases merr with
  | none => simp
  | some e1 => by_cases he : e1.isExist <;> simp [he]

/-! Claim theorems. -/

/-- C1 is false of the code in its error-propagation part: here the only
error encountered during the walk is the failure `eRead` to list the child
directory `bad`, yet `Translate` returns nil (the error is discarded by the
loop of `CopyDir`) and the walk goes on to copy the later sibling `b`. -/
theorem translate_first_error_cex :
    (Translator.Translate (New Nat "s" "t") wAll1
        (.ok [.dirErr "bad" 0 eRead, .file "b" 0]) st0).1 = none ∧
    getFile (Translator.Translate (New Nat "s" "t") wAll1
        (.ok [.dirErr "bad" 0 eRead, .file "b" 0]) st0).2.files "t/b" = some [1] := by
  decide

/-- C1 amended: the zero-argument entry point `Translate` performs the
recursive directory copy starting from the root (empty) subpath — it is
exactly `CopyDir ""`, and on a concrete one-file source tree it populates
the target, so it is not a no-op — and it returns success or the first
root-level error: a failure to list the source root is returned, a fatal
(non-`isExist`) failure to create the target root directory is returned,
and once root listing and root directory creation succeed the result is
nil, errors from the children being discarded inside `CopyDir`. -/
theorem translate_walks_from_root (α : Type) (t : Translator α) (w : World α)
    (root : Except GoErr (List FSEntry)) (st : TState) :
    Translator.Translate t w root st = Translator.CopyDir t w "" root st ∧
    (∀ e, Translator.Translate t w (.error e) st = (some e, st)) ∧
    (∀ e children, TState.hasDir st (pathJoin t.Target "") = false →
      w.mkdirFail (pathJoin t.Target "") = some e → e.isExist = false →
      Translator.Translate t w (.ok children) st = (some e, st)) ∧
    (∀ children, TState.hasDir st (pathJoin t.Target "") = false →
      w.mkdirFail (pathJoin t.Target "") = none →
      (Translator.Translate t w (.ok children) st).1 = none) ∧
    Translator.Translate (New Nat "s" "t") wAll1 (.ok [.file "a" 0]) st0 =
      (none, ⟨[("t", 0o755)], [("t/a", [1])]⟩) := by
  refine ⟨rfl, fun _ => rfl, ?_, ?_, by decide⟩
  · intro e children hx hm hex
    simp [Translator.Translate, Translator.CopyDir, Translator.copyDirChildren,
      mkdirGo, hx, hm, hex]
  · intro children hx hm
    simp [Translator.Translate, Translator.CopyDir, Translator.copyDirChildren,
      mkdirGo, hx, hm]

/-- Witness for `translate_walks_from_root` at a concrete input. -/
theorem translate_walks_from_root_witness :
    (Translator.Translate (New Nat "s" "t") wAll1 (.ok [.file "a" 0]) st0).1 = none :=
  (translate_walks_from_root Nat (New Nat "s" "t") wAll1
      (.ok [.file "a" 0]) st0).2.2.2.1 [.file "a" 0] (by decide) (by decide)

/-- C2 is false of the code: in a directory whose first child fails to copy
(the source `s/a` is unreadable), the error does not propagate out of
`Translate` (the overall result is nil) and the second child `b`, later in
listing order, is still attempted and copied. -/
theorem copyDir_child_error_not_propagated_cex :
    (Translator.Translate (New Nat "s" "t") wFailA
        (.ok [.file "a" 0, .file "b" 0]) st0).1 = none ∧
    getFile (Translator.Translate (New Nat "s" "t") wFailA
        (.ok [.file "a" 0, .file "b" 0]) st0).2.files "t/b" = some [7] := by
  decide

/-- C2 amended: `CopyDir` discards the error results of its children: every
child is processed in listing order regardless of failures of earlier
children, and provided listing succeeded and directory creation did not fail
fatally, `CopyDir` returns nil, so a child error never propagates out of
`Translate`. -/
theorem copyDir_discards_child_errors (α : Type) (t : Translator α)
    (w : World α) (subpath : String) (children : List FSEntry) (st : TState)
    (h : (mkdirGo w (pathJoin t.Target subpath) t.DirMode st).1 = none ∨
      ∃ e, (mkdirGo w (pathJoin t.Target subpath) t.DirMode st).1 = some e ∧
        e.isExist = true) :
    (Translator.copyDirChildren t w subpath children st).1 = none ∧
    ∀ e rest st1, Translator.copyEntries t w subpath (e :: rest) st1 =
      Translator.copyEntries t w subpath rest
        (Translator.copyEntry t w subpath e st1) := by
  constructor
  · simp only [Translator.copyDirChildren]
    rcases hm : mkdirGo w (pathJoin t.Target subpath) t.DirMode st with ⟨merr, stm⟩
    rw [hm] at h
    rcases h with h | ⟨e, he, hex⟩
    · simp only at h
      subst h
      simp
    · simp only at he
      subst he
      simp [hex]
  · intro e rest st1
    rfl

/-- Witness for `copyDir_discards_child_errors` at a concrete input. -/
theorem copyDir_discards_child_errors_witness :
    (Translator.copyDirChildren (New Nat "s" "t") wFailA "" [.file "a" 0] st0).1 = none ∧
    Translator.copyEntries (New Nat "s" "t") wFailA "" [.file "a" 0] st0 =
      Translator.copyEntries (New Nat "s" "t") wFailA "" []
        (Translator.copyEntry (New Nat "s" "t") wFailA "" (.file "a" 0) st0) :=
  ⟨(copyDir_discards_child_errors Nat (New Nat "s" "t") wFailA "" [.file "a" 0] st0
      (Or.inl (by decide))).1,
    (copyDir_discards_child_errors Nat (New Nat "s" "t") wFailA "" [.file "a" 0] st0
      (Or.inl (by decide))).2 (.file "a" 0) [] st0⟩

/-- C3 is violated by the code (the code contradicts its own comment on
`ExcludeDir`): the walk never consults `ExcludeDir`.  With the always-true
directory-exclusion predicate, the subdirectory `sub` is still recursed
into, its target directory `t/sub` is created, and its descendant file `g`
is still copied to `t/sub/g`. -/
theorem excludeDir_never_consulted :
    (Translator.Translate tExclDirs wAll1
        (.ok [.dirOk "sub" 0 [.file "g" 0]]) st0).2.hasDir "t/sub" = true ∧
    getFile (Translator.Translate tExclDirs wAll1
        (.ok [.dirOk "sub" 0 [.file "g" 0]]) st0).2.files "t/sub/g" = some [1] ∧
    (Translator.Translate tExclDirs wAll1
        (.ok [.dirOk "sub" 0 [.file "g" 0]]) st0).1 = none := by
  decide

/-- C4: in `CopyDir`, a directory-creation failure because the target
directory already exists is treated as success and the walk continues with
the children from the unchanged state; any other creation failure is
returned and aborts this subtree. -/
theorem mkdir_exists_tolerated (α : Type) (t : Translator α) (w : World α)
    (subpath : String) (children : List FSEntry) (st : TState) :
    (TState.hasDir st (pathJoin t.Target subpath) = true →
      Translator.copyDirChildren t w subpath children st =
        (none, Translator.copyEntries t w subpath children st)) ∧
    (∀ e, TState.hasDir st (pathJoin t.Target subpath) = false →
      w.mkdirFail (pathJoin t.Target subpath) = some e → e.isExist = false →
      Translator.copyDirChildren t w subpath children st = (some e, st)) := by
  constructor
  · intro hx
    simp [Translator.copyDirChildren, mkdirGo, hx]
  · intro e hx hm hex
    simp [Translator.copyDirChildren, mkdirGo, hx, hm, hex]

/-- Witness for `mkdir_exists_tolerated` at a concrete input. -/
theorem mkdir_exists_tolerated_witness :
    Translator.copyDirChildren (New Nat "s" "t") wAll1 "" [] ⟨[("t", 0o755)], []⟩ =
      (none, Translator.copyEntries (New Nat "s" "t") wAll1 "" [] ⟨[("t", 0o755)], []⟩) :=
  (mkdir_exists_tolerated Nat (New Nat "s" "t") wAll1 "" [] ⟨[("t", 0o755)], []⟩).1
    (by decide)

/-- C5: `ColdCopy` opens the source for reading, creates (truncating) the
target, and streams the bytes across: on success the target holds exactly
the source bytes; an open failure is returned with the target untouched;
create failures and streaming failures are returned as well. -/
theorem coldCopy_spec (α : Type) (w : World α) (source target : String)
    (fi : Option FileInfo) (data : Option α) (st : TState) :
    (∀ st1, ColdCopy w source target fi data st = (none, st1) →
      ∃ c, w.readFile source = .ok c ∧ getFile st1.files target = some c) ∧
    (∀ e, w.readFile source = .error e →
      ColdCopy w source target fi data st = (some e, st)) ∧
    (∀ c e, w.readFile source = .ok c → w.createFail target = some e →
      ColdCopy w source target fi data st = (some e, st)) ∧
    (∀ c e, w.readFile source = .ok c → w.createFail target = none →
      w.writeFail target = some e →
      (ColdCopy w source target fi data st).1 = some e) := by
  refine ⟨?_, ?_, ?_, ?_⟩
  · intro st1 h
    cases hr : w.readFile source with
    | error e => simp [ColdCopy, hr] at h
    | ok c =>
      refine ⟨c, rfl, ?_⟩
      cases hc : w.createFail target with
      | some e => simp [ColdCopy, createGo, hr, hc] at h
      | none =>
        cases hw : w.writeFail target with
        | some e => simp [ColdCopy, createGo, writeGo, hr, hc, hw] at h
        | none =>
          simp [ColdCopy, createGo, writeGo, hr, hc, hw] at h
          rw [← h]
          exact getFile_setFile _ _ _
  · intro e hr
    simp [ColdCopy, hr]
  · intro c e hr hc
    simp [ColdCopy, createGo, hr, hc]
  · intro c e hr hc hw
    simp [ColdCopy, createGo, writeGo, hr, hc, hw]

/-- Witness for `coldCopy_spec` at a concrete input. -/
theorem coldCopy_spec_witness :
    ColdCopy wFailA "s/a" "t/a" none none st0 = (some eRead, st0) :=
  (coldCopy_spec Nat wFailA "s/a" "t/a" none none st0).2.1 eRead rfl

/-- C6: `TemplateCopy` dispatches on the `.tmpl` suffix: a source without
the suffix is delegated entirely to `ColdCopy` with nil metadata and nil
user data and an unchanged target name; a source with the suffix produces
the target with `.tmpl` stripped, holding the output of executing the parsed
source template against the user data, and parse and execution errors are
propagated; concretely `page.html.tmpl` maps to `page.html` and `readme.txt`
stays unchanged. -/
theorem templateCopy_dispatch (α : Type) (w : World α) (source target : String)
    (fi : Option FileInfo) (data : Option α) (st : TState) :
    (hasSuffixGo source ".tmpl" = false →
      TemplateCopy w source target fi data st =
        ColdCopy w source target none none st) ∧
    (hasSuffixGo source ".tmpl" = true →
      w.createFail (trimSuffix target ".tmpl") = none →
      (∀ parsed rendered, parseFilesGo w source = .ok parsed →
        w.execTemplate parsed data = .ok rendered →
        w.writeFail (trimSuffix target ".tmpl") = none →
        ∃ st1, TemplateCopy w source target fi data st = (none, st1) ∧
          getFile st1.files (trimSuffix target ".tmpl") = some rendered) ∧
      (∀ e, parseFilesGo w source = .error e →
        (TemplateCopy w source target fi data st).1 = some e) ∧
      (∀ parsed e, parseFilesGo w source = .ok parsed →
        w.execTemplate parsed data = .error e →
        (TemplateCopy w source target fi data st).1 = some e)) ∧
    trimSuffix "page.html.tmpl" ".tmpl" = "page.html" ∧
    trimSuffix "readme.txt" ".tmpl" = "readme.txt" := by
  refine ⟨?_, ?_, by decide, by decide⟩
  · intro hs
    simp [TemplateCopy, hs]
  · intro hs hc
    refine ⟨?_, ?_, ?_⟩
    · intro parsed rendered hp he hw
      refine ⟨{ st with
                files := setFile (setFile st.files (trimSuffix target ".tmpl") [])
                           (trimSuffix target ".tmpl") rendered },
        ?_, getFile_setFile _ _ _⟩
      simp [TemplateCopy, hs, createGo, hc, hp, he, writeGo, hw]
    · intro e hp
      simp [TemplateCopy, hs, createGo, hc, hp]
    · intro parsed e hp he
      simp [TemplateCopy, hs, createGo, hc, hp, he]

/-- Witness for `templateCopy_dispatch` at a concrete input. -/
theorem templateCopy_dispatch_witness :
    TemplateCopy wAll1 "s/readme.txt" "t/readme.txt" none none st0 =
      ColdCopy wAll1 "s/readme.txt" "t/readme.txt" none none st0 :=
  (templateCopy_dispatch Nat wAll1 "s/readme.txt" "t/readme.txt" none none st0).1
    (by decide)

/-- C7: `CopyFile` on an excluded file returns success with the state
untouched (the copy strategy is not invoked, so no target file is created or
modified); on a non-excluded file it is exactly one invocation of the copy
strategy with the joined source path, the joined target path, the metadata
of the entry, and the configured user data. -/
theorem copyFile_exclusion (α : Type) (t : Translator α) (w : World α)
    (subpath : String) (fi : FileInfo) (st : TState) :
    (t.ExcludeFile fi = true →
      Translator.CopyFile t w subpath fi st = (none, st)) ∧
    (t.ExcludeFile fi = false →
      Translator.CopyFile t w subpath fi st =
        t.CopyFunc w (pathJoin t.Source subpath) (pathJoin t.Target subpath)
          (some fi) t.CopyData st) := by
  constructor <;> intro hx <;> simp [Translator.CopyFile, hx]

/-- Witness for `copyFile_exclusion` at a concrete input. -/
theorem copyFile_exclusion_witness :
    Translator.CopyFile tExclFiles wAll1 "a" ⟨"a", false, 0⟩ st0 = (none, st0) :=
  (copyFile_exclusion Nat tExclFiles wAll1 "a" ⟨"a", false, 0⟩ st0).1 (by decide)

/-- C8: within `CopyDir`, a listing failure is returned with the target
directory not created and no child processed (the state is unchanged); when
listing succeeds and the target directory can be created, it is created
before any child is processed: the children run from the state already
extended with the new directory. -/
theorem copyDir_creates_dir_before_children (α : Type) (t : Translator α)
    (w : World α) (subpath : String) (children : List FSEntry) (st : TState)
    (e : GoErr) :
    Translator.CopyDir t w subpath (.error e) st = (some e, st) ∧
    (TState.hasDir st (pathJoin t.Target subpath) = false →
      w.mkdirFail (pathJoin t.Target subpath) = none →
      Translator.copyDirChildren t w subpath children st =
        (none, Translator.copyEntries t w subpath children
          { st with dirs := st.dirs ++ [(pathJoin t.Target subpath, t.DirMode)] }) ∧
      TState.hasDir
        { st with dirs := st.dirs ++ [(pathJoin t.Target subpath, t.DirMode)] }
        (pathJoin t.Target subpath) = true) := by
  refine ⟨rfl, fun hx hm => ⟨?_, ?_⟩⟩
  · simp [Translator.copyDirChildren, mkdirGo, hx, hm]
  · simp [TState.hasDir]

/-- Witness for `copyDir_creates_dir_before_children` at a concrete input. -/
theorem copyDir_creates_dir_before_children_witness :
    Translator.copyDirChildren (New Nat "s" "t") wAll1 "x" [] st0 =
      (none, Translator.copyEntries (New Nat "s" "t") wAll1 "x" []
        { st0 with dirs := st0.dirs ++
            [(pathJoin (New Nat "s" "t").Target "x", (New Nat "s" "t").DirMode)] }) ∧
    TState.hasDir
      { st0 with dirs := st0.dirs ++
          [(pathJoin (New Nat "s" "t").Target "x", (New Nat "s" "t").DirMode)] }
      (pathJoin (New Nat "s" "t").Target "x") = true :=
  (copyDir_creates_dir_before_children Nat (New Nat "s" "t") wAll1 "x" [] st0 eRead).2
    (by decide) (by decide)

/-- C9: `New` returns a translator whose source and target roots are the
path-cleaned inputs and whose other fields take the documented defaults:
both exclusion predicates are `ExcludeNone` (false on every metadata value),
the directory creation mode is `0o755`, the copy strategy is `ColdCopy`, and
the user data is nil; concretely, cleaning really normalizes the roots. -/
theorem new_defaults (α : Type) (source target : String) :
    (New α source target).Source = pathClean source ∧
    (New α source target).Target = pathClean target ∧
    (∀ fi, (New α source target).ExcludeDir fi = false) ∧
    (∀ fi, (New α source target).ExcludeFile fi = false) ∧
    (New α source target).DirMode = 0o755 ∧
    (New α source target).CopyFunc = ColdCopy ∧
    (New α source target).CopyData = none ∧
    (New Nat "a//b/./../c/" "./d/e/..").Source = "a/c" ∧
    (New Nat "a//b/./../c/" "./d/e/..").Target = "d" :=
  ⟨rfl, rfl, fun _ => rfl, fun _ => rfl, rfl, rfl, rfl, by decide, by decide⟩

/-- C10: for a `.tmpl` source, `TemplateCopy` creates (truncating) the
extension-stripped target before parsing: when the parse fails, the parse
error is returned but the target file has already been created and truncated
(it exists with empty contents rather than being left unchanged). -/
theorem templateCopy_creates_before_parse (α : Type) (w : World α)
    (source target : String) (fi : Option FileInfo) (data : Option α)
    (st : TState) (e : GoErr)
    (hs : hasSuffixGo source ".tmpl" = true)
    (hc : w.createFail (trimSuffix target ".tmpl") = none)
    (hp : parseFilesGo w source = .error e) :
    TemplateCopy w source target fi data st =
      (some e, { st with files := setFile st.files (trimSuffix target ".tmpl") [] }) ∧
    getFile (TemplateCopy w source target fi data st).2.files
      (trimSuffix target ".tmpl") = some [] := by
  have h1 : TemplateCopy w source target fi data st =
      (some e, { st with files := setFile st.files (trimSuffix target ".tmpl") [] }) := by
    simp [TemplateCopy, hs, createGo, hc, hp]
  refine ⟨h1, ?_⟩
  rw [h1]
  exact getFile_setFile _ _ _

/-- Witness for `templateCopy_creates_before_parse` at a concrete input. -/
theorem templateCopy_creates_before_parse_witness :
    TemplateCopy wParseErr "s/p.html.tmpl" "t/p.html.tmpl" none none st0 =
      (some eParse,
        { st0 with
          files := setFile st0.files (trimSuffix "t/p.html.tmpl" ".tmpl") [] }) ∧
    getFile (TemplateCopy wParseErr "s/p.html.tmpl" "t/p.html.tmpl" none none st0).2.files
      (trimSuffix "t/p.html.tmpl" ".tmpl") = some [] :=
  templateCopy_creates_before_parse Nat wParseErr "s/p.html.tmpl" "t/p.html.tmpl"
    none none st0 eParse (by decide) rfl rfl

end Staticdir
